import Mathlib

/-!
# Verification of the mcp-tools-server JSON-RPC core

Shallow embedding of the JSON-RPC processor
(`internal/server/jsonrpc_processor.go`), the stdio message dispatcher
(`internal/server/mcp_server.go`), the tool service
(`internal/server/tool_service.go`) and the SSE broadcast manager
(`internal/server/sse_manager.go`), together with proofs of the
behavioural claims about them.

Decoded Go `map[string]interface{}` values are modelled as association
lists of string keys and JSON values; Go map lookup is `findVal`.
Go errors are modelled with `Except String`.
-/

namespace MCP

/-- A decoded JSON value, as produced by `encoding/json` into
`map[string]interface{}` (numbers are modelled as integers; the claims
never depend on fractional values). -/
inductive JSON where
  | null : JSON
  | bool (b : Bool) : JSON
  | num (n : Int) : JSON
  | str (s : String) : JSON
  | arr (xs : List JSON) : JSON
  | obj (fields : List (String × JSON)) : JSON

/-- Go map lookup `m[k]`: the value of the first (and, for a decoded Go
map, only) binding of key `k`, or `none` when the key is absent. -/
def findVal (fields : List (String × JSON)) (k : String) : Option JSON :=
  match fields with
  | [] => none
  | p :: rest => if p.1 = k then some p.2 else findVal rest k

/-- The Go type assertion `v.(string)`. -/
def asString : Option JSON → Option String
  | some (JSON.str s) => some s
  | _ => none

/-- The Go type assertion `v.(map[string]interface{})`; a failed
assertion yields the nil map, which reads as the empty map. -/
def asObj : Option JSON → Option (List (String × JSON))
  | some (JSON.obj fields) => some fields
  | _ => none

/-- A tool (`pkg/tools.Tool`): a name, a description and a synchronous
execute operation from a string-keyed argument bag to a string-keyed
result bag or an error. -/
structure Tool where
  name : String
  description : String
  execute : List (String × JSON) → Except String (List (String × JSON))

/-- The Tool Directory (`ToolService.tools`, a `map[string]tools.Tool`):
an association list from tool name to tool, with unique keys. -/
abbrev ToolDir := List (String × Tool)

/-- Lookup of a tool by name in the directory (`s.tools[name]`). -/
def ToolDir.lookupTool (ts : ToolDir) (name : String) : Option Tool :=
  match ts with
  | [] => none
  | p :: rest => if p.1 = name then some p.2 else ToolDir.lookupTool rest name

/-- `ToolService.ExecuteTool`: look the tool up, fail with
`"tool not found: <name>"` when absent, otherwise run its execute
operation and pass its result or error through. -/
def ExecuteTool (ts : ToolDir) (name : String)
    (args : List (String × JSON)) : Except String (List (String × JSON)) :=
  match ts.lookupTool name with
  | none => Except.error ("tool not found: " ++ name)
  | some t => t.execute args

/-- `ToolDefinition` from `jsonrpc_processor.go`: the listing entry for
one tool. -/
structure ToolDefinition where
  name : String
  description : String
  inputSchema : JSON

/-- `InitializeResult` from `jsonrpc_processor.go`. The Go field
`Capabilities` is the map `{"tools": <tool list>}`; the embedded field
holds that tool list. -/
structure InitializeResult where
  protocolVersion : String
  capabilitiesTools : List ToolDefinition
  serverInfoName : String
  serverInfoVersion : String

/-- The Go `Result interface{}` field: one of the concrete success
payloads the processor ever stores there. -/
inductive ResultPayload where
  | initRes (r : InitializeResult) : ResultPayload
  | toolsList (tools : List ToolDefinition) : ResultPayload
  | toolCall (bag : List (String × JSON)) : ResultPayload

/-- `ErrorObject` from `jsonrpc_processor.go`. -/
structure ErrorObject where
  code : Int
  message : String
deriving Repr, DecidableEq

/-- `JSONRPCResponse` from `jsonrpc_processor.go`. `id` is the Go
`interface{}` value (`none` models the nil interface). `result` and
`error` both carry `omitempty`, so `none` models the omitted field. -/
structure JSONRPCResponse where
  jsonrpc : String
  id : Option JSON
  result : Option ResultPayload
  error : Option ErrorObject

/-- The fixed generic input schema built in `getAvailableTools`:
`{"type": "object", "properties": {}}`. -/
def genericSchema : JSON :=
  JSON.obj [("type", JSON.str "object"), ("properties", JSON.obj [])]

/-- The listing entry `getAvailableTools` builds for one tool. -/
def toolDefOf (t : Tool) : ToolDefinition :=
  { name := t.name, description := t.description, inputSchema := genericSchema }

/-- `getAvailableTools`: one `ToolDefinition` per tool in the directory,
in directory iteration order. -/
def getAvailableTools (ts : ToolDir) : List ToolDefinition :=
  ts.map (fun p => toolDefOf p.2)

/-- `HandleInitialize`: always a success response with the fixed
protocol version, the capabilities tool list and the static server
identity. -/
def HandleInitialize (ts : ToolDir) (id : Option JSON) : JSONRPCResponse :=
  { jsonrpc := "2.0"
    id := id
    result := some (ResultPayload.initRes
      { protocolVersion := "2024-11-05"
        capabilitiesTools := getAvailableTools ts
        serverInfoName := "mcp-tools-server"
        serverInfoVersion := "1.0.0" })
    error := none }

/-- `HandleToolsList`: always a success response with the tool list
under the `"tools"` key. -/
def HandleToolsList (ts : ToolDir) (id : Option JSON) : JSONRPCResponse :=
  { jsonrpc := "2.0"
    id := id
    result := some (ResultPayload.toolsList (getAvailableTools ts))
    error := none }

/-- `CreateErrorResponse`: a response with the given id and error
object and no result. -/
def CreateErrorResponse (id : Option JSON) (code : Int)
    (message : String) : JSONRPCResponse :=
  { jsonrpc := "2.0"
    id := id
    result := none
    error := some { code := code, message := message } }

/-- `HandleToolsCall`: require `params.name` to be a string
(`-32602` otherwise); coerce `params.arguments` with a Go map type
assertion whose failure yields the nil (empty) bag; run the tool and
wrap its result, or answer `-32000` with the prefixed error text. -/
def HandleToolsCall (ts : ToolDir) (params : List (String × JSON))
    (id : Option JSON) : JSONRPCResponse :=
  match asString (findVal params "name") with
  | none => CreateErrorResponse id (-32602) "Invalid params: Missing tool name"
  | some name =>
    let arguments := (asObj (findVal params "arguments")).getD []
    match ExecuteTool ts name arguments with
    | Except.error e =>
      CreateErrorResponse id (-32000) ("Tool execution error: " ++ e)
    | Except.ok result =>
      { jsonrpc := "2.0"
        id := id
        result := some (ResultPayload.toolCall result)
        error := none }

/-- `MCPServer.handleMessage`: dispatch one decoded message. The
`Except.error` case is the Go path where `handleMessage` returns a
non-nil error to `Start`; `Except.ok none` means no response was sent
(a notification); `Except.ok (some r)` means `r` was sent. -/
def handleMessage (ts : ToolDir) (message : List (String × JSON)) :
    Except String (Option JSONRPCResponse) :=
  match asString (findVal message "method") with
  | none =>
    match findVal message "id" with
    | some id =>
      Except.ok (some (CreateErrorResponse (some id) (-32600) "Invalid Request"))
    | none => Except.error "invalid message: missing method"
  | some method =>
    let idOpt := findVal message "id"
    if method = "initialized" then Except.ok none
    else if method = "tools/list" then
      Except.ok (some (HandleToolsList ts idOpt))
    else if method = "tools/call" then
      match asObj (findVal message "params") with
      | none => Except.ok (some (CreateErrorResponse idOpt (-32602) "Invalid params"))
      | some params => Except.ok (some (HandleToolsCall ts params idOpt))
    else if idOpt.isSome then
      Except.ok (some (CreateErrorResponse idOpt (-32601) "Method not found"))
    else Except.ok none

/-- What one turn of the `Start` message loop does with the outcome of
`handleMessage`. -/
inductive LoopOutcome where
  | continues (response : Option JSONRPCResponse) : LoopOutcome
  | fatal (err : String) : LoopOutcome

/-- One turn of the main message loop in `MCPServer.Start`
(lines 52-70): a non-nil error from `handleMessage` makes `Start`
return, terminating the loop; otherwise the loop continues. -/
def loopStep (ts : ToolDir) (message : List (String × JSON)) : LoopOutcome :=
  match handleMessage ts message with
  | Except.ok r => LoopOutcome.continues r
  | Except.error e => LoopOutcome.fatal e

/-! ## The SSE broadcast manager (`internal/server/sse_manager.go`)

A `Client` carries the identifier, its buffered send channel and the
liveness flag. Go channels are heap objects: we model each `make(chan)`
as allocating a fresh numeric channel handle from `nextChan`, with the
queue contents held in `mailboxes` and a ghost close counter
`chanClosed` that records how many times `close` has run on a handle
(`close` on an already-closed Go channel panics, so the counter staying
at most `1` is exactly the absence of a double-close panic).
Interleavings are sequential: the model is the lock-serialized order of
the operations. -/

/-- The fixed mailbox capacity from `make(chan []byte, 256)`. -/
def mailboxCapacity : Nat := 256

/-- `Client` from `sse_manager.go` (the logger field is dropped; the
channel is a handle into the manager state). -/
structure Client where
  id : String
  sendChan : Nat
  isAlive : Bool

/-- `SSEManager`: the registry map plus the channel heap. -/
structure SSEManager where
  clients : List (String × Client)
  mailboxes : Nat → List String
  chanClosed : Nat → Nat
  nextChan : Nat

/-- Go map lookup `m.clients[id]`. -/
def lookupClient (cs : List (String × Client)) (id : String) : Option Client :=
  match cs with
  | [] => none
  | p :: rest => if p.1 = id then some p.2 else lookupClient rest id

/-- Go map deletion `delete(m.clients, id)`. -/
def eraseClient (cs : List (String × Client)) (id : String) :
    List (String × Client) :=
  match cs with
  | [] => []
  | p :: rest =>
    if p.1 = id then eraseClient rest id else p :: eraseClient rest id

/-- `NewSSEManager`: empty registry, no channels allocated. -/
def newSSEManager : SSEManager :=
  { clients := [], mailboxes := fun _ => [], chanClosed := fun _ => 0
    nextChan := 0 }

/-- `AddClient`: allocate a fresh empty mailbox channel, mark the client
live and register it under the generated identifier. The random
`uuid.NewString()` is an input of the model; Go map assignment replaces
any previous binding of the same key. -/
def AddClient (st : SSEManager) (newId : String) : SSEManager × Client :=
  let c : Client := { id := newId, sendChan := st.nextChan, isAlive := true }
  ({ clients := (newId, c) :: eraseClient st.clients newId
     mailboxes := fun ch => if ch = st.nextChan then [] else st.mailboxes ch
     chanClosed := st.chanClosed
     nextChan := st.nextChan + 1 }, c)

/-- `RemoveClient`: when the id is present, clear liveness, close the
mailbox channel (bump its ghost close counter) and delete the entry;
otherwise do nothing. -/
def RemoveClient (st : SSEManager) (id : String) : SSEManager :=
  match lookupClient st.clients id with
  | none => st
  | some c =>
    { clients := eraseClient st.clients id
      mailboxes := st.mailboxes
      chanClosed := fun ch =>
        if ch = c.sendChan then st.chanClosed ch + 1 else st.chanClosed ch
      nextChan := st.nextChan }

/-- `Send`: look the client up (`"client not found"` when absent),
check liveness (`"client channel closed"` when cleared), then enqueue.
Sequentially nothing drains the mailbox during the call, so a full
mailbox is exactly the branch where the 2-second `time.After` fires
(`"timeout sending message to client ..."`). An error leaves the
manager unchanged: only the `ok` branch carries a new state. -/
def Send (st : SSEManager) (clientID : String) (message : String) :
    Except String SSEManager :=
  match lookupClient st.clients clientID with
  | none => Except.error ("client not found: " ++ clientID)
  | some c =>
    if c.isAlive = false then
      Except.error ("client channel closed: " ++ clientID)
    else if (st.mailboxes c.sendChan).length < mailboxCapacity then
      Except.ok { st with mailboxes := (fun ch =>
        if ch = c.sendChan then st.mailboxes ch ++ [message]
        else st.mailboxes ch) }
    else Except.error ("timeout sending message to client " ++ clientID)

/-- The non-blocking `select`/`default` enqueue used by `Broadcast`:
append when there is room, otherwise leave the mailbox unchanged. -/
def tryEnqueue (message : String) (box : List String) : List String :=
  if box.length < mailboxCapacity then box ++ [message] else box

/-- One iteration of the `Broadcast` range loop: a live client gets the
non-blocking enqueue on its own channel, a non-live one is skipped. -/
def broadcastStep (message : String) (boxes : Nat → List String)
    (p : String × Client) : Nat → List String :=
  if p.2.isAlive then
    fun ch => if ch = p.2.sendChan then tryEnqueue message (boxes ch)
      else boxes ch
  else boxes

/-- `Broadcast`: iterate every registered client, non-blocking enqueue
per live client; the registry itself is untouched. -/
def Broadcast (st : SSEManager) (message : String) : SSEManager :=
  { st with mailboxes := st.clients.foldl (broadcastStep message) st.mailboxes }

/-- One manager operation of a sequential history. -/
inductive MOp where
  | add (newId : String) : MOp
  | remove (id : String) : MOp
  | send (id : String) (message : String) : MOp
  | bcast (message : String) : MOp

/-- The state after one operation (a failed `Send` leaves the state as
it was: the error branch returns no new state). -/
def applyOp (st : SSEManager) : MOp → SSEManager
  | MOp.add newId => (AddClient st newId).1
  | MOp.remove id => RemoveClient st id
  | MOp.send id message =>
    match Send st id message with
    | Except.ok st2 => st2
    | Except.error _ => st
  | MOp.bcast message => Broadcast st message

/-- The state reached by a finite sequence of operations from a newly
created manager. -/
def runOps (ops : List MOp) : SSEManager :=
  ops.foldl applyOp newSSEManager

/-- The registry invariant: every registered client is live with an
open (never-closed) channel below the allocation bound, registered
channels are pairwise distinct, no channel is ever closed twice, and
unallocated channels are unclosed. -/
structure Inv (st : SSEManager) : Prop where
  alive : ∀ p ∈ st.clients, p.2.isAlive = true
  chanOpen : ∀ p ∈ st.clients, st.chanClosed p.2.sendChan = 0
  bounded : ∀ p ∈ st.clients, p.2.sendChan < st.nextChan
  distinctChans : (st.clients.map (fun p => p.2.sendChan)).Nodup
  closedOnce : ∀ ch, st.chanClosed ch ≤ 1
  freshOpen : ∀ ch, st.nextChan ≤ ch → st.chanClosed ch = 0

/-! ## Registry lemmas -/

theorem lookupClient_mem : ∀ {cs : List (String × Client)} {id : String}
    {c : Client}, lookupClient cs id = some c → (id, c) ∈ cs := by
  intro cs
  induction cs with
  | nil => intro id c h; simp [lookupClient] at h
  | cons p rest ih =>
    intro id c h
    rw [lookupClient] at h
    by_cases hp : p.1 = id
    · rw [if_pos hp] at h
      injection h with h2
      subst hp
      subst h2
      exact List.mem_cons_self _ _
    · rw [if_neg hp] at h
      exact List.mem_cons_of_mem _ (ih h)

theorem mem_eraseClient : ∀ {cs : List (String × Client)} {id : String}
    {p : String × Client}, p ∈ eraseClient cs id → p ∈ cs ∧ ¬ p.1 = id := by
  intro cs
  induction cs with
  | nil => intro id p h; simp [eraseClient] at h
  | cons q rest ih =>
    intro id p h
    rw [eraseClient] at h
    by_cases hq : q.1 = id
    · rw [if_pos hq] at h
      obtain ⟨h1, h2⟩ := ih h
      exact ⟨List.mem_cons_of_mem _ h1, h2⟩
    · rw [if_neg hq] at h
      rcases List.mem_cons.mp h with h1 | h1
      · subst h1
        exact ⟨List.mem_cons_self _ _, hq⟩
      · obtain ⟨h1, h2⟩ := ih h1
        exact ⟨List.mem_cons_of_mem _ h1, h2⟩

theorem eraseClient_sublist : ∀ (cs : List (String × Client)) (id : String),
    (eraseClient cs id).Sublist cs := by
  intro cs id
  induction cs with
  | nil => simp [eraseClient]
  | cons q rest ih =>
    rw [eraseClient]
    by_cases hq : q.1 = id
    · rw [if_pos hq]
      exact ih.cons _
    · rw [if_neg hq]
      exact ih.cons₂ _

theorem lookupClient_eraseClient_self : ∀ (cs : List (String × Client))
    (id : String), lookupClient (eraseClient cs id) id = none := by
  intro cs id
  induction cs with
  | nil => rfl
  | cons q rest ih =>
    rw [eraseClient]
    by_cases hq : q.1 = id
    · rw [if_pos hq]
      exact ih
    · rw [if_neg hq, lookupClient, if_neg hq]
      exact ih

theorem lookupClient_RemoveClient_self (st : SSEManager) (id : String) :
    lookupClient (RemoveClient st id).clients id = none := by
  rw [RemoveClient]
  cases hl : lookupClient st.clients id with
  | none => exact hl
  | some c => exact lookupClient_eraseClient_self st.clients id

/-! ## Invariant preservation -/

theorem inv_newSSEManager : Inv newSSEManager := by
  constructor <;> simp [newSSEManager]

theorem inv_AddClient {st : SSEManager} (h : Inv st) (newId : String) :
    Inv (AddClient st newId).1 := by
  simp only [AddClient]
  constructor
  · intro p hp
    rcases List.mem_cons.mp hp with h1 | h1
    · rw [h1]
    · exact h.alive p (mem_eraseClient h1).1
  · intro p hp
    rcases List.mem_cons.mp hp with h1 | h1
    · rw [h1]
      exact h.freshOpen st.nextChan (le_refl _)
    · exact h.chanOpen p (mem_eraseClient h1).1
  · intro p hp
    rcases List.mem_cons.mp hp with h1 | h1
    · rw [h1]
      exact Nat.lt_succ_self _
    · exact Nat.lt_succ_of_lt (h.bounded p (mem_eraseClient h1).1)
  · refine List.nodup_cons.mpr ⟨?_, ?_⟩
    · intro hmem
      rcases List.mem_map.mp hmem with ⟨p, hp, hchan⟩
      have hb := h.bounded p (mem_eraseClient hp).1
      dsimp only at hchan
      omega
    · exact List.Nodup.sublist
        ((eraseClient_sublist st.clients newId).map _) h.distinctChans
  · exact h.closedOnce
  · intro ch hch
    exact h.freshOpen ch (Nat.le_of_succ_le hch)

theorem inv_RemoveClient {st : SSEManager} (h : Inv st) (id : String) :
    Inv (RemoveClient st id) := by
  rw [RemoveClient]
  cases hl : lookupClient st.clients id with
  | none => exact h
  | some c =>
    have hcmem : (id, c) ∈ st.clients := lookupClient_mem hl
    dsimp only
    constructor
    · intro p hp
      exact h.alive p (mem_eraseClient hp).1
    · intro p hp
      obtain ⟨hpm, hpne⟩ := mem_eraseClient hp
      have hne : p.2.sendChan ≠ c.sendChan := by
        intro he
        have hpq : p = (id, c) :=
          List.inj_on_of_nodup_map h.distinctChans hpm hcmem he
        exact hpne (by rw [hpq])
      simp only [if_neg hne]
      exact h.chanOpen p hpm
    · intro p hp
      exact h.bounded p (mem_eraseClient hp).1
    · exact List.Nodup.sublist
        ((eraseClient_sublist st.clients id).map _) h.distinctChans
    · intro ch
      dsimp only
      by_cases hc : ch = c.sendChan
      · subst hc
        rw [if_pos rfl]
        have hop := h.chanOpen (id, c) hcmem
        dsimp only at hop
        omega
      · rw [if_neg hc]
        exact h.closedOnce ch
    · intro ch hch
      dsimp only at hch ⊢
      have hcb : c.sendChan < st.nextChan := h.bounded (id, c) hcmem
      have hne : ch ≠ c.sendChan := by omega
      rw [if_neg hne]
      exact h.freshOpen ch hch

theorem Send_ok_fields {st : SSEManager} {id m : String} {st2 : SSEManager}
    (h : Send st id m = Except.ok st2) :
    st2.clients = st.clients ∧ st2.chanClosed = st.chanClosed ∧
      st2.nextChan = st.nextChan := by
  rw [Send] at h
  split at h
  · cases h
  · split at h
    · cases h
    · split at h
      · injection h with h2
        rw [← h2]
        exact ⟨rfl, rfl, rfl⟩
      · cases h

theorem inv_applyOp {st : SSEManager} (h : Inv st) (op : MOp) :
    Inv (applyOp st op) := by
  cases op with
  | add newId => exact inv_AddClient h newId
  | remove id => exact inv_RemoveClient h id
  | send id m =>
    simp only [applyOp]
    cases hs : Send st id m with
    | ok st2 =>
      obtain ⟨h1, h2, h3⟩ := Send_ok_fields hs
      constructor
      · rw [h1]
        exact h.alive
      · rw [h1, h2]
        exact h.chanOpen
      · rw [h1, h3]
        exact h.bounded
      · rw [h1]
        exact h.distinctChans
      · rw [h2]
        exact h.closedOnce
      · rw [h2, h3]
        exact h.freshOpen
    | error e => exact h
  | bcast m =>
    exact ⟨h.alive, h.chanOpen, h.bounded, h.distinctChans, h.closedOnce,
      h.freshOpen⟩

theorem inv_foldl : ∀ (l : List MOp) (st : SSEManager), Inv st →
    Inv (l.foldl applyOp st) := by
  intro l
  induction l with
  | nil => intro st h; exact h
  | cons op rest ih =>
    intro st h
    exact ih _ (inv_applyOp h op)

theorem inv_runOps (ops : List MOp) : Inv (runOps ops) :=
  inv_foldl ops newSSEManager inv_newSSEManager

/-! ## Broadcast characterization -/

theorem broadcastStep_other (m : String) (boxes : Nat → List String)
    (q : String × Client) (ch : Nat) (hne : q.2.sendChan ≠ ch) :
    broadcastStep m boxes q ch = boxes ch := by
  rw [broadcastStep]
  by_cases hq : q.2.isAlive = true
  · rw [if_pos hq]
    rw [if_neg (fun h => hne h.symm)]
  · rw [if_neg hq]

theorem broadcastStep_self (m : String) (boxes : Nat → List String)
    (q : String × Client) :
    broadcastStep m boxes q q.2.sendChan =
      (if q.2.isAlive = true then tryEnqueue m (boxes q.2.sendChan)
       else boxes q.2.sendChan) := by
  rw [broadcastStep]
  by_cases hq : q.2.isAlive = true
  · rw [if_pos hq, if_pos hq]
    rw [if_pos rfl]
  · rw [if_neg hq, if_neg hq]

theorem foldl_broadcastStep_notMem (m : String) :
    ∀ (L : List (String × Client)) (boxes : Nat → List String) (ch : Nat),
    (∀ p ∈ L, p.2.sendChan ≠ ch) →
    L.foldl (broadcastStep m) boxes ch = boxes ch := by
  intro L
  induction L with
  | nil => intro boxes ch _; rfl
  | cons q rest ih =>
    intro boxes ch hne
    rw [List.foldl_cons, ih _ ch (fun p hp => hne p (List.mem_cons_of_mem _ hp)),
      broadcastStep_other m boxes q ch (hne q (List.mem_cons_self _ _))]

theorem foldl_broadcastStep_lookup (m : String) :
    ∀ (L : List (String × Client)) (boxes : Nat → List String)
      (id : String) (c : Client),
    (L.map (fun p => p.2.sendChan)).Nodup →
    lookupClient L id = some c →
    L.foldl (broadcastStep m) boxes c.sendChan =
      (if c.isAlive = true then tryEnqueue m (boxes c.sendChan)
       else boxes c.sendChan) := by
  intro L
  induction L with
  | nil => intro boxes id c _ h; simp [lookupClient] at h
  | cons q rest ih =>
    intro boxes id c hnd hl
    rw [List.map_cons, List.nodup_cons] at hnd
    obtain ⟨hq1, hq2⟩ := hnd
    rw [List.foldl_cons]
    rw [lookupClient] at hl
    by_cases hqid : q.1 = id
    · rw [if_pos hqid] at hl
      injection hl with hl2
      subst hl2
      rw [foldl_broadcastStep_notMem m rest _ q.2.sendChan
        (fun p hp h => hq1 (by rw [← h]; exact List.mem_map_of_mem _ hp))]
      exact broadcastStep_self m boxes q
    · rw [if_neg hqid] at hl
      have hcm : c.sendChan ∈ rest.map (fun p => p.2.sendChan) :=
        List.mem_map_of_mem _ (lookupClient_mem hl)
      have hne : q.2.sendChan ≠ c.sendChan := fun h => hq1 (by rw [h]; exact hcm)
      rw [ih _ id c hq2 hl, broadcastStep_other m boxes q c.sendChan hne]

theorem Broadcast_mailboxes {st : SSEManager} (m : String)
    (hnd : (st.clients.map (fun p => p.2.sendChan)).Nodup)
    {id : String} {c : Client} (hl : lookupClient st.clients id = some c) :
    (Broadcast st m).mailboxes c.sendChan =
      (if c.isAlive = true ∧ (st.mailboxes c.sendChan).length < mailboxCapacity
       then st.mailboxes c.sendChan ++ [m] else st.mailboxes c.sendChan) := by
  have h := foldl_broadcastStep_lookup m st.clients st.mailboxes id c hnd hl
  rw [Broadcast]
  dsimp only
  rw [h, tryEnqueue]
  by_cases ha : c.isAlive = true
  · rw [if_pos ha]
    by_cases hlen : (st.mailboxes c.sendChan).length < mailboxCapacity
    · rw [if_pos hlen, if_pos ⟨ha, hlen⟩]
    · rw [if_neg hlen, if_neg (fun hc => hlen hc.2)]
  · rw [if_neg ha, if_neg (fun hc => ha hc.1)]

theorem Broadcast_mailboxes_other {st : SSEManager} (m : String) {ch : Nat}
    (h : ∀ p ∈ st.clients, p.2.sendChan ≠ ch) :
    (Broadcast st m).mailboxes ch = st.mailboxes ch := by
  rw [Broadcast]
  dsimp only
  exact foldl_broadcastStep_notMem m st.clients st.mailboxes ch h

theorem Broadcast_clients (st : SSEManager) (m : String) :
    (Broadcast st m).clients = st.clients := rfl

/-! ## Further shared lemmas and concrete test fixtures -/

/-- Removing the `"arguments"` key from a decoded params object: the
same request with `arguments` absent. -/
def eraseKey (fields : List (String × JSON)) (k : String) :
    List (String × JSON) :=
  match fields with
  | [] => []
  | p :: rest => if p.1 = k then eraseKey rest k else p :: eraseKey rest k

theorem findVal_eraseKey_self : ∀ (fields : List (String × JSON))
    (k : String), findVal (eraseKey fields k) k = none := by
  intro fields k
  induction fields with
  | nil => rfl
  | cons p rest ih =>
    rw [eraseKey]
    by_cases hp : p.1 = k
    · rw [if_pos hp]
      exact ih
    · rw [if_neg hp, findVal, if_neg hp]
      exact ih

theorem findVal_eraseKey_other : ∀ (fields : List (String × JSON))
    (k k2 : String), k2 ≠ k →
    findVal (eraseKey fields k) k2 = findVal fields k2 := by
  intro fields k k2 hne
  induction fields with
  | nil => rfl
  | cons p rest ih =>
    by_cases hp : p.1 = k
    · have hp2 : ¬ p.1 = k2 := fun h => hne (by rw [← h]; exact hp)
      rw [eraseKey, if_pos hp, ih]
      conv_rhs => rw [findVal]
      rw [if_neg hp2]
    · rw [eraseKey, if_neg hp, findVal, ih]
      conv_rhs => rw [findVal]

theorem asObj_not_obj {v : JSON} (h : ∀ fields, v ≠ JSON.obj fields) :
    asObj (some v) = none := by
  cases v with
  | obj fields => exact absurd rfl (h fields)
  | null => rfl
  | bool b => rfl
  | num n => rfl
  | str s => rfl
  | arr xs => rfl

theorem RemoveClient_eq_of_not_found {st : SSEManager} {id : String}
    (h : lookupClient st.clients id = none) : RemoveClient st id = st := by
  rw [RemoveClient, h]

theorem Send_ok_lookup {st st2 : SSEManager} {id m : String}
    (h : Send st id m = Except.ok st2) :
    ∃ c, lookupClient st.clients id = some c := by
  rw [Send] at h
  split at h
  · cases h
  · next c heq => exact ⟨c, heq⟩

/-- The empty Tool Directory. -/
def noTools : ToolDir := []

/-- A concrete tool whose execute operation always fails with the
error text `"boom"`. -/
def boomTool : Tool :=
  { name := "boom_tool", description := "always fails"
    execute := fun _ => Except.error "boom" }

/-- A directory holding only `boomTool`. -/
def boomDir : ToolDir := [("boom_tool", boomTool)]

/-- A mailbox filled to capacity. -/
def fullBox : List String := List.replicate mailboxCapacity "x"

/-- Concrete client on channel 0. -/
def clientA : Client := { id := "a", sendChan := 0, isAlive := true }

/-- Concrete client on channel 1. -/
def clientB : Client := { id := "b", sendChan := 1, isAlive := true }

/-- A concrete manager state: client `"a"` with a full mailbox, client
`"b"` with an empty one. -/
def stW : SSEManager :=
  { clients := [("a", clientA), ("b", clientB)]
    mailboxes := fun ch => if ch = 0 then fullBox else []
    chanClosed := fun _ => 0
    nextChan := 2 }

/-- A concrete operation history: add two clients, remove the first. -/
def opsW : List MOp := [MOp.add "a", MOp.add "b", MOp.remove "a"]

/-- The state after adding a single client `"a"`. -/
def stA : SSEManager := runOps [MOp.add "a"]

/-! ## Claim theorems -/

/-- C1 counterexample: the empty decoded message has no `method` and no
`id`. The claim says it is silently dropped with the message loop
continuing unaffected; in `handleMessage` this input instead returns
the non-nil error `"invalid message: missing method"`, which makes the
`Start` loop terminate. -/
theorem C1_missing_method_no_id_counterexample :
    loopStep noTools [] = LoopOutcome.fatal "invalid message: missing method" ∧
    loopStep noTools [] ≠ LoopOutcome.continues none :=
  ⟨rfl, fun h => LoopOutcome.noConfusion h⟩

/-- C1 (amended): for a decoded message whose `method` is absent or not
a string, if an `id` is present the loop sends `-32600`
`"Invalid Request"` echoing that id and continues; if no `id` is
present, no response is produced but `handleMessage` returns an error
and the `Start` message loop terminates (fatal to the stdio
connection). -/
theorem C1_missing_method_dispatch (ts : ToolDir)
    (message : List (String × JSON))
    (hm : asString (findVal message "method") = none) :
    (∀ id, findVal message "id" = some id →
      loopStep ts message = LoopOutcome.continues
        (some (CreateErrorResponse (some id) (-32600) "Invalid Request"))) ∧
    (findVal message "id" = none →
      loopStep ts message = LoopOutcome.fatal "invalid message: missing method") := by
  constructor
  · intro id hid
    rw [loopStep, handleMessage, hm, hid]
  · intro hid
    rw [loopStep, handleMessage, hm, hid]

/-- Witness for C1: concrete invalid messages with and without an id. -/
theorem C1_missing_method_dispatch_witness :
    loopStep noTools [("id", JSON.num 7)] = LoopOutcome.continues
      (some (CreateErrorResponse (some (JSON.num 7)) (-32600) "Invalid Request")) ∧
    loopStep noTools [] = LoopOutcome.fatal "invalid message: missing method" :=
  ⟨(C1_missing_method_dispatch noTools [("id", JSON.num 7)] rfl).1
      (JSON.num 7) rfl,
   (C1_missing_method_dispatch noTools [] rfl).2 rfl⟩

/-- C2 counterexample: a tool failing with error text `"boom"` yields
an error response whose message is `"Tool execution error: boom"`, not
exactly the tool's error message `"boom"` as the claim states. -/
theorem C2_prefixed_message_counterexample :
    ((HandleToolsCall boomDir [("name", JSON.str "boom_tool")]
        (some (JSON.num 1))).error.map ErrorObject.message ≠ some "boom") ∧
    ((HandleToolsCall boomDir [("name", JSON.str "boom_tool")]
        (some (JSON.num 1))).error.map ErrorObject.message =
      some "Tool execution error: boom") := by
  refine ⟨?_, rfl⟩
  intro h
  have h2 : some "Tool execution error: boom" = some "boom" := h
  injection h2 with h3
  exact absurd h3 (by decide)

/-- C2 (amended): when the named tool exists and its execute operation
fails with error `e`, the processor returns an error response with
code `-32000` whose message is `e` prefixed with
`"Tool execution error: "`, and with no result field. -/
theorem C2_tool_failure_error_response (ts : ToolDir)
    (params : List (String × JSON)) (idOpt : Option JSON) (name : String)
    (t : Tool) (e : String)
    (hname : findVal params "name" = some (JSON.str name))
    (hlk : ts.lookupTool name = some t)
    (hex : t.execute ((asObj (findVal params "arguments")).getD []) =
      Except.error e) :
    HandleToolsCall ts params idOpt =
      CreateErrorResponse idOpt (-32000) ("Tool execution error: " ++ e) ∧
    (HandleToolsCall ts params idOpt).result = none := by
  have h : HandleToolsCall ts params idOpt =
      CreateErrorResponse idOpt (-32000) ("Tool execution error: " ++ e) := by
    simp only [HandleToolsCall, hname, asString, ExecuteTool, hlk, hex]
  exact ⟨h, by rw [h]; rfl⟩

/-- Witness for C2: the failing tool `boomTool` at a concrete request. -/
theorem C2_tool_failure_error_response_witness :
    HandleToolsCall boomDir [("name", JSON.str "boom_tool")]
        (some (JSON.num 1)) =
      CreateErrorResponse (some (JSON.num 1)) (-32000)
        ("Tool execution error: " ++ "boom") ∧
    (HandleToolsCall boomDir [("name", JSON.str "boom_tool")]
        (some (JSON.num 1))).result = none :=
  C2_tool_failure_error_response boomDir [("name", JSON.str "boom_tool")]
    (some (JSON.num 1)) "boom_tool" boomTool "boom" rfl rfl rfl

/-- C4: unknown-name resolution is split by level. A message with a
string method outside the four known ones answers `-32601`
`"Method not found"` when an id is present and is silently ignored
(loop continues, no response) when not; a `tools/call` naming a tool
absent from the Directory answers `-32000`, never `-32601`. -/
theorem C4_unknown_method_vs_unknown_tool :
    (∀ (ts : ToolDir) (message : List (String × JSON)) (method : String),
      asString (findVal message "method") = some method →
      method ≠ "initialize" → method ≠ "initialized" →
      method ≠ "tools/list" → method ≠ "tools/call" →
      (∀ id, findVal message "id" = some id →
        loopStep ts message = LoopOutcome.continues
          (some (CreateErrorResponse (some id) (-32601) "Method not found"))) ∧
      (findVal message "id" = none →
        loopStep ts message = LoopOutcome.continues none)) ∧
    (∀ (ts : ToolDir) (params : List (String × JSON)) (idOpt : Option JSON)
      (name : String),
      findVal params "name" = some (JSON.str name) →
      ts.lookupTool name = none →
      HandleToolsCall ts params idOpt =
        CreateErrorResponse idOpt (-32000)
          ("Tool execution error: " ++ ("tool not found: " ++ name))) := by
  constructor
  · intro ts message method hm h1 h2 h3 h4
    constructor
    · intro id hid
      rw [loopStep, handleMessage, hm]
      simp only [if_neg h2, if_neg h3, if_neg h4, hid, Option.isSome_some,
        if_pos]
    · intro hid
      rw [loopStep, handleMessage, hm]
      simp only [if_neg h2, if_neg h3, if_neg h4, hid, Option.isSome_none]
      rfl
  · intro ts params idOpt name hname hlk
    simp only [HandleToolsCall, hname, asString, ExecuteTool, hlk]

/-- Witness for C4: an unknown method with and without an id, and an
unknown tool name. -/
theorem C4_unknown_method_vs_unknown_tool_witness :
    loopStep noTools [("method", JSON.str "nope"), ("id", JSON.num 1)] =
      LoopOutcome.continues (some (CreateErrorResponse (some (JSON.num 1))
        (-32601) "Method not found")) ∧
    loopStep noTools [("method", JSON.str "nope")] =
      LoopOutcome.continues none ∧
    HandleToolsCall noTools [("name", JSON.str "ghost")] (some (JSON.num 5)) =
      CreateErrorResponse (some (JSON.num 5)) (-32000)
        ("Tool execution error: " ++ ("tool not found: " ++ "ghost")) :=
  ⟨(C4_unknown_method_vs_unknown_tool.1 noTools
      [("method", JSON.str "nope"), ("id", JSON.num 1)] "nope" rfl
      (by decide) (by decide) (by decide) (by decide)).1 (JSON.num 1) rfl,
   (C4_unknown_method_vs_unknown_tool.1 noTools
      [("method", JSON.str "nope")] "nope" rfl
      (by decide) (by decide) (by decide) (by decide)).2 rfl,
   C4_unknown_method_vs_unknown_tool.2 noTools [("name", JSON.str "ghost")]
      (some (JSON.num 5)) "ghost" rfl rfl⟩

/-- Exactly one of the `result` and `error` fields is present. -/
def exactlyOneOf (r : JSONRPCResponse) : Prop :=
  (r.result.isSome = true ∧ r.error = none) ∨
  (r.result = none ∧ r.error.isSome = true)

/-- C5: every response built by `HandleInitialize`, `HandleToolsList`,
`HandleToolsCall` or `CreateErrorResponse` carries exactly one of
`result` and `error` — never both, never neither. -/
theorem C5_exactly_one_of_result_error (ts : ToolDir)
    (id1 id2 id3 id4 : Option JSON) (params : List (String × JSON))
    (code : Int) (msg : String) :
    exactlyOneOf (HandleInitialize ts id1) ∧
    exactlyOneOf (HandleToolsList ts id2) ∧
    exactlyOneOf (HandleToolsCall ts params id3) ∧
    exactlyOneOf (CreateErrorResponse id4 code msg) := by
  refine ⟨Or.inl ⟨rfl, rfl⟩, Or.inl ⟨rfl, rfl⟩, ?_, Or.inr ⟨rfl, rfl⟩⟩
  cases hn : asString (findVal params "name") with
  | none =>
    simp only [HandleToolsCall, hn]
    exact Or.inr ⟨rfl, rfl⟩
  | some name =>
    cases he : ExecuteTool ts name
        ((asObj (findVal params "arguments")).getD []) with
    | error e =>
      simp only [HandleToolsCall, hn, he]
      exact Or.inr ⟨rfl, rfl⟩
    | ok r =>
      simp only [HandleToolsCall, hn, he]
      exact Or.inl ⟨rfl, rfl⟩

/-- Witness for C5: concrete instantiation at the boom directory. -/
theorem C5_exactly_one_of_result_error_witness :
    exactlyOneOf (HandleInitialize boomDir none) ∧
    exactlyOneOf (HandleToolsList boomDir none) ∧
    exactlyOneOf (HandleToolsCall boomDir [("name", JSON.str "boom_tool")]
      none) ∧
    exactlyOneOf (CreateErrorResponse none (-32601) "Method not found") :=
  C5_exactly_one_of_result_error boomDir none none none none
    [("name", JSON.str "boom_tool")] (-32601) "Method not found"

/-- C3: `Broadcast` (a total function, hence terminating and
non-blocking by construction) leaves the registry unchanged; each
registered live client with free mailbox capacity receives the message
and a full mailbox is skipped unchanged; the outcome at each client
depends only on that client's own mailbox, so one full mailbox never
affects delivery to any other client; channels of nobody are
untouched. -/
theorem C3_broadcast_isolation (st : SSEManager) (m : String)
    (hnd : (st.clients.map (fun p => p.2.sendChan)).Nodup) :
    (Broadcast st m).clients = st.clients ∧
    (∀ id c, lookupClient st.clients id = some c →
      (Broadcast st m).mailboxes c.sendChan =
        (if c.isAlive = true ∧
            (st.mailboxes c.sendChan).length < mailboxCapacity
         then st.mailboxes c.sendChan ++ [m]
         else st.mailboxes c.sendChan)) ∧
    (∀ ch, (∀ p ∈ st.clients, p.2.sendChan ≠ ch) →
      (Broadcast st m).mailboxes ch = st.mailboxes ch) :=
  ⟨Broadcast_clients st m,
   fun _ _ hl => Broadcast_mailboxes m hnd hl,
   fun _ h => Broadcast_mailboxes_other m h⟩

set_option maxRecDepth 10000 in
/-- Witness for C3: with client `"a"` full and client `"b"` empty, the
broadcast still delivers to `"b"` and skips `"a"`. -/
theorem C3_broadcast_isolation_witness :
    (Broadcast stW "m").mailboxes 1 = ["m"] ∧
    (Broadcast stW "m").mailboxes 0 = fullBox := by
  have h := C3_broadcast_isolation stW "m" (by decide)
  constructor
  · have hb := h.2.1 "b" clientB rfl
    exact hb.trans (by rfl)
  · have ha := h.2.1 "a" clientA rfl
    exact ha.trans (by decide)

/-- C6: after any finite operation history from a fresh manager, every
registered client is live with an unclosed mailbox channel, no channel
is ever closed more than once, and removing a registered client closes
its channel exactly once (close count goes from zero to one). -/
theorem C6_registry_liveness_and_single_close (ops : List MOp) :
    (∀ p ∈ (runOps ops).clients, p.2.isAlive = true ∧
      (runOps ops).chanClosed p.2.sendChan = 0) ∧
    (∀ ch, (runOps ops).chanClosed ch ≤ 1) ∧
    (∀ id c, lookupClient (runOps ops).clients id = some c →
      (RemoveClient (runOps ops) id).chanClosed c.sendChan = 1) := by
  have h := inv_runOps ops
  refine ⟨fun p hp => ⟨h.alive p hp, h.chanOpen p hp⟩, h.closedOnce, ?_⟩
  intro id c hl
  rw [RemoveClient, hl]
  dsimp only
  rw [if_pos rfl]
  have hop := h.chanOpen (id, c) (lookupClient_mem hl)
  dsimp only at hop
  omega

/-- Witness for C6: the concrete history `opsW`. -/
theorem C6_registry_liveness_and_single_close_witness :
    (RemoveClient (runOps opsW) "b").chanClosed 1 = 1 ∧
    (runOps opsW).chanClosed 0 ≤ 1 :=
  ⟨(C6_registry_liveness_and_single_close opsW).2.2 "b"
      { id := "b", sendChan := 1, isAlive := true } rfl,
   (C6_registry_liveness_and_single_close opsW).2.1 0⟩

/-- C7: `RemoveClient` is idempotent: a second removal of the same id
is the identity (so the mailbox is not closed a second time and, since
the model is total, nothing panics), and removal of an id that is not
registered is a silent no-op. -/
theorem C7_RemoveClient_idempotent (st : SSEManager) (id : String) :
    RemoveClient (RemoveClient st id) id = RemoveClient st id ∧
    (lookupClient st.clients id = none → RemoveClient st id = st) :=
  ⟨RemoveClient_eq_of_not_found (lookupClient_RemoveClient_self st id),
   fun h => RemoveClient_eq_of_not_found h⟩

/-- Witness for C7: double removal of `"a"` and removal of an unknown
id on a concrete one-client state. -/
theorem C7_RemoveClient_idempotent_witness :
    RemoveClient (RemoveClient stA "a") "a" = RemoveClient stA "a" ∧
    RemoveClient stA "zzz" = stA :=
  ⟨(C7_RemoveClient_idempotent stA "a").1,
   (C7_RemoveClient_idempotent stA "zzz").2 rfl⟩

/-- C8: `Send` to an id absent from the registry (never added or
already removed) returns the `"client not found"` error, leaving the
state unchanged; in particular `Send` directly after `RemoveClient` of
the same id always errors this way; and on any reachable state a
successful `Send` enqueues only onto a channel whose close count is
zero — sequentially, `Send` never sends on a closed channel. -/
theorem C8_send_absent_or_removed (st : SSEManager) (ops : List MOp)
    (id m : String) :
    (lookupClient st.clients id = none →
      Send st id m = Except.error ("client not found: " ++ id) ∧
      applyOp st (MOp.send id m) = st) ∧
    (Send (RemoveClient st id) id m =
      Except.error ("client not found: " ++ id)) ∧
    (∀ st2, Send (runOps ops) id m = Except.ok st2 →
      ∃ c, lookupClient (runOps ops).clients id = some c ∧
        (runOps ops).chanClosed c.sendChan = 0) := by
  refine ⟨?_, ?_, ?_⟩
  · intro h
    constructor
    · rw [Send, h]
    · simp only [applyOp, Send, h]
  · rw [Send, lookupClient_RemoveClient_self]
  · intro st2 h
    obtain ⟨c, hl⟩ := Send_ok_lookup h
    exact ⟨c, hl, (inv_runOps ops).chanOpen (id, c) (lookupClient_mem hl)⟩

/-- Witness for C8: sending to an unknown id, to a just-removed id, and
a successful send on a reachable state. -/
theorem C8_send_absent_or_removed_witness :
    (Send stA "zzz" "x" = Except.error ("client not found: " ++ "zzz") ∧
      applyOp stA (MOp.send "zzz" "x") = stA) ∧
    Send (RemoveClient stA "a") "a" "x" =
      Except.error ("client not found: " ++ "a") ∧
    ∃ c, lookupClient (runOps [MOp.add "a"]).clients "a" = some c ∧
      (runOps [MOp.add "a"]).chanClosed c.sendChan = 0 :=
  ⟨(C8_send_absent_or_removed stA [MOp.add "a"] "zzz" "x").1 rfl,
   (C8_send_absent_or_removed stA [MOp.add "a"] "a" "x").2.1,
   (C8_send_absent_or_removed stA [MOp.add "a"] "a" "x").2.2
     (applyOp (runOps [MOp.add "a"]) (MOp.send "a" "x")) rfl⟩

/-- C9: `tools/list` and the `initialize` capabilities expose one and
the same enumeration of the Tool Directory: one entry per registered
tool carrying its name, its description and the generic empty-object
schema, with none missing and none extra (the order is whatever the
directory iteration produced). -/
theorem C9_responses_enumerate_directory (ts : ToolDir)
    (id1 id2 : Option JSON) :
    ∃ defs : List ToolDefinition,
      (HandleToolsList ts id1).result = some (ResultPayload.toolsList defs) ∧
      (HandleInitialize ts id2).result = some (ResultPayload.initRes
        { protocolVersion := "2024-11-05", capabilitiesTools := defs
          serverInfoName := "mcp-tools-server"
          serverInfoVersion := "1.0.0" }) ∧
      defs.length = List.length ts ∧
      (∀ td, td ∈ defs ↔ ∃ p ∈ ts, td =
        { name := p.2.name, description := p.2.description
          inputSchema := genericSchema }) := by
  refine ⟨getAvailableTools ts, rfl, rfl, List.length_map _ _, ?_⟩
  intro td
  constructor
  · intro h
    rcases List.mem_map.mp h with ⟨p, hp, he⟩
    exact ⟨p, hp, he.symm⟩
  · rintro ⟨p, hp, rfl⟩
    exact List.mem_map_of_mem _ hp

/-- Witness for C9: the one-tool directory `boomDir`. -/
theorem C9_responses_enumerate_directory_witness :
    ∃ defs : List ToolDefinition,
      (HandleToolsList boomDir none).result =
        some (ResultPayload.toolsList defs) ∧
      (HandleInitialize boomDir none).result = some (ResultPayload.initRes
        { protocolVersion := "2024-11-05", capabilitiesTools := defs
          serverInfoName := "mcp-tools-server"
          serverInfoVersion := "1.0.0" }) ∧
      defs.length = List.length boomDir ∧
      (∀ td, td ∈ defs ↔ ∃ p ∈ boomDir, td =
        { name := p.2.name, description := p.2.description
          inputSchema := genericSchema }) :=
  C9_responses_enumerate_directory boomDir none none

/-- C10: a `tools/call` whose `params.arguments` is present but not a
string-keyed object is not rejected: the failed Go map type assertion
yields the empty argument bag, so the response is exactly the one for
the same params with `arguments` removed. -/
theorem C10_non_object_arguments_ignored (ts : ToolDir)
    (params : List (String × JSON)) (idOpt : Option JSON) (name : String)
    (v : JSON)
    (hname : findVal params "name" = some (JSON.str name))
    (hargs : findVal params "arguments" = some v)
    (hv : ∀ fields, v ≠ JSON.obj fields) :
    HandleToolsCall ts params idOpt =
      HandleToolsCall ts (eraseKey params "arguments") idOpt := by
  have h1 : asObj (findVal params "arguments") = none := by
    rw [hargs]
    exact asObj_not_obj hv
  have h2 : findVal (eraseKey params "arguments") "name" =
      some (JSON.str name) := by
    rw [findVal_eraseKey_other _ _ _ (by decide)]
    exact hname
  have h3 : asObj (findVal (eraseKey params "arguments") "arguments") =
      none := by
    rw [findVal_eraseKey_self]
    rfl
  rw [HandleToolsCall, HandleToolsCall, hname, h2, h1, h3]

/-- Witness for C10: a string-valued `arguments` field on a concrete
request. -/
theorem C10_non_object_arguments_ignored_witness :
    HandleToolsCall noTools
      [("name", JSON.str "x"), ("arguments", JSON.str "junk")]
      (some (JSON.num 7)) =
    HandleToolsCall noTools
      (eraseKey [("name", JSON.str "x"), ("arguments", JSON.str "junk")]
        "arguments") (some (JSON.num 7)) :=
  C10_non_object_arguments_ignored noTools
    [("name", JSON.str "x"), ("arguments", JSON.str "junk")]
    (some (JSON.num 7)) "x" (JSON.str "junk") rfl rfl
    (fun _ h => JSON.noConfusion h)

end MCP
